import Mathlib

/-!
Shallow embedding of the litecrypt core encryption pipeline
(src/litecrypt/core/base.py, src/litecrypt/core/helpers/funcs.py,
src/litecrypt/core/datacrypt.py, src/litecrypt/utils/consts/main.py).

Bytes are lists of naturals; Python str values are lists of Unicode
code points.  External library primitives (AES-CBC, SHA-256, HMAC,
bcrypt kdf, the UTF-8 codec and URL-safe base64) are modelled as an
abstract `Primitives` bundle together with the contracts the library
guarantees (`GoodPrims`).  Everything the repository itself implements
(envelope layout, PKCS7 padding arithmetic, hex key parsing, bounds
checks, the encrypt/decrypt state machines and the `Crypt` facade) is
translated directly from the source.  Calls into side-effecting or
expensive primitives are logged in an event trace so that ordering
properties (verify-then-decrypt, validate-before-derive) are provable.
-/

/-- Byte strings, one natural per byte. -/
abbrev Bytes := List Nat

/-- Python `str` values, one natural per Unicode code point. -/
abbrev PyStr := List Nat

/-- Constants from `litecrypt.utils.consts.Size`. -/
def Size.IV : Nat := 16

/-- Salt length in bytes. -/
def Size.SALT : Nat := 16

/-- Pepper length in bytes. -/
def Size.PEPPER : Nat := 16

/-- Cipher block size in bits (16 * 8 in the source). -/
def Size.BLOCK : Nat := 16 * 8

/-- Minimum decoded length of the long-term key in bytes. -/
def Size.MAIN_KEY : Nat := 32

/-- Derived AES key length in bytes. -/
def Size.AES_KEY : Nat := 32

/-- HMAC-SHA256 tag length in bytes. -/
def Size.HMAC : Nat := 32

/-- Lower bound of the valid iteration range. -/
def Size.MIN_ITERATIONS : Nat := 50

/-- Upper bound of the valid iteration range. -/
def Size.MAX_ITERATIONS : Nat := 10 ^ 6

/-- Width of the packed iteration-count field in bytes. -/
def Size.StructPack.FOR_ITERATIONS : Nat := 4

/-- Width of the packed KDF-signature field in bytes. -/
def Size.StructPack.FOR_KDF_SIGNATURE : Nat := 4

/-- KDF signature value for the cost-intensive algorithm. -/
def UseKDF.SLOW : Nat := 0

/-- KDF signature value for the fast algorithm. -/
def UseKDF.FAST : Nat := 1

/-- Errors raised inside the core pipeline, one constructor per source
exception site: `ValueError` from key verification, the dynamic
`IterationsOutofRangeError`, `MessageTamperingError`, `struct.error`
from `struct.unpack`, the codec errors, the PKCS7 unpadding
`ValueError` and `binascii.Error` from base64 decoding. -/
inductive CoreErr where
  | valueError
  | iterationsOutOfRange (received : Nat)
  | messageTampering
  | structError
  | unicodeEncodeError
  | unicodeDecodeError
  | invalidUnpadding
  | binasciiError
  deriving DecidableEq

/-- Errors visible at the `Crypt` facade (datacrypt.py): the empty-input
error, the wrapper `CryptError` (which chains its cause), and the
`KeyLengthError` raised at construction. -/
inductive DataErr where
  | emptyContent
  | cryptError (cause : CoreErr)
  | keyLength
  deriving DecidableEq

/-- Observable pipeline events, logged where the source invokes the
corresponding primitive: `os.urandom` via `cipher_randomizers`,
`use_KDF`, HMAC computation, `hmac.compare_digest`, and the AES
encryptor and decryptor. -/
inductive Event where
  | drawRandom
  | kdfDerive
  | hmacCompute
  | tagCompare
  | aesEncrypt
  | aesDecrypt
  deriving DecidableEq

/-- Python data values of type `Union[str, bytes]`. -/
inductive PyData where
  | ofStr (s : PyStr)
  | ofBytes (b : Bytes)

/-- Python truthiness of a str or bytes value (`if self.data:`). -/
def pyTruthy : PyData → Bool
  | .ofStr s => !s.isEmpty
  | .ofBytes b => !b.isEmpty

/-- ASCII whitespace, the byte set `b" \t\n\r\x0b\x0c"` stripped by
`bytes.strip()` and skipped by `bytes.fromhex`. -/
def isAsciiSpace (c : Nat) : Bool :=
  c == 32 || c == 9 || c == 10 || c == 11 || c == 12 || c == 13

/-- Code points for which Python `str.isspace()` holds, the set stripped
by `str.strip()`. -/
def pyStrIsSpace (c : Nat) : Bool :=
  c == 32 || (9 ≤ c && c ≤ 13) || (28 ≤ c && c ≤ 31) || c == 133 ||
  c == 160 || c == 5760 || (8192 ≤ c && c ≤ 8202) || c == 8232 ||
  c == 8233 || c == 8239 || c == 8287 || c == 12288

/-- Drop elements satisfying a predicate from both ends. -/
def stripWith (p : Nat → Bool) (l : List Nat) : List Nat :=
  ((l.dropWhile p).reverse.dropWhile p).reverse

/-- Python `str.strip()`. -/
def pyStrStrip (s : PyStr) : PyStr := stripWith pyStrIsSpace s

/-- Python `bytes.strip()`. -/
def pyBytesStrip (b : Bytes) : Bytes := stripWith isAsciiSpace b

/-- Value of one hexadecimal digit character, if any. -/
def hexDigitVal (c : Nat) : Option Nat :=
  if 48 ≤ c ∧ c ≤ 57 then some (c - 48)
  else if 97 ≤ c ∧ c ≤ 102 then some (c - 87)
  else if 65 ≤ c ∧ c ≤ 70 then some (c - 55)
  else none

/-- Python `bytes.fromhex`: a run of ASCII whitespace may appear before
any byte pair and at the end, but each byte is two consecutive hex
digits with nothing in between; `none` models the `ValueError` raised
on a pair split by whitespace, an odd digit count or a non-hex
character (CPython skips whitespace only between byte pairs). -/
def bytesFromhex : PyStr → Option Bytes
  | [] => some []
  | c :: rest =>
      if isAsciiSpace c then bytesFromhex rest
      else
        match hexDigitVal c, rest with
        | some h1, c2 :: rest2 =>
            match hexDigitVal c2, bytesFromhex rest2 with
            | some h2, some tl => some ((h1 * 16 + h2) :: tl)
            | _, _ => none
        | _, _ => none

/-- Big-endian 4-byte packing, `struct.pack` with format `!I`.  Both
call sites pack an iteration count already bounds-checked below
`2 ^ 32` or a KDF signature in `{0, 1}`. -/
def packU32 (n : Nat) : Bytes :=
  [n / 2 ^ 24 % 256, n / 2 ^ 16 % 256, n / 2 ^ 8 % 256, n % 256]

/-- Big-endian 4-byte unpacking, `struct.unpack` with format `!I`;
`struct.error` unless the buffer is exactly 4 bytes. -/
def unpackU32 : Bytes → Except CoreErr Nat
  | [a, b, c, d] => .ok (a * 2 ^ 24 + b * 2 ^ 16 + c * 2 ^ 8 + d)
  | _ => .error .structError

/-- PKCS7 padding as performed by `padding.PKCS7(block_size_bits)`:
append `p` copies of `p` where `p` is the distance to the next block
boundary, always between 1 and the block size. -/
def pkcs7Pad (blockSizeBits : Nat) (m : Bytes) : Bytes :=
  let bs := blockSizeBits / 8
  let p := bs - m.length % bs
  m ++ List.replicate p p

/-- PKCS7 unpadding as performed by the library unpadder: the input
must be a non-empty multiple of the block size, the final byte `p`
must lie in `[1, block]` and the last `p` bytes must all equal `p`;
any violation raises the unpadding `ValueError`. -/
def pkcs7Unpad (blockSizeBits : Nat) (data : Bytes) : Except CoreErr Bytes :=
  let bs := blockSizeBits / 8
  match data.getLast? with
  | none => .error .invalidUnpadding
  | some p =>
    if data.length % bs ≠ 0 then .error .invalidUnpadding
    else if p = 0 ∨ bs < p then .error .invalidUnpadding
    else if data.drop (data.length - p) ≠ List.replicate p p then .error .invalidUnpadding
    else .ok (data.take (data.length - p))

/-- Abstract interface to the external cryptographic and codec
primitives used by the pipeline: `hashlib.sha256`, `hmac.HMAC` with
SHA-256, `bcrypt.kdf`, AES in CBC mode from the cryptography package,
the UTF-8 codec and URL-safe base64. -/
structure Primitives where
  sha256 : Bytes → Bytes
  hmacSha256 : Bytes → Bytes → Bytes
  bcryptKdf : Bytes → Bytes → Nat → Nat → Bytes
  aesCbcEnc : Bytes → Bytes → Bytes → Bytes
  aesCbcDec : Bytes → Bytes → Bytes → Bytes
  utf8Encode : PyStr → Option Bytes
  utf8Decode : Bytes → Option PyStr
  b64encode : Bytes → Bytes
  b64decode : Bytes → Option Bytes

/-- Contracts the external libraries guarantee: digest and derived-key
lengths, ciphertext length preservation, CBC decryption inverting
encryption under the same key and IV, and the codec round trips. -/
structure GoodPrims (P : Primitives) : Prop where
  sha256_len : ∀ d, (P.sha256 d).length = 32
  hmac_len : ∀ k d, (P.hmacSha256 k d).length = 32
  kdf_len : ∀ pw s n r, (P.bcryptKdf pw s n r).length = n
  aesEnc_len : ∀ k iv p, (P.aesCbcEnc k iv p).length = p.length
  aesDec_enc : ∀ k iv p, P.aesCbcDec k iv (P.aesCbcEnc k iv p) = p
  utf8_roundtrip : ∀ s b, P.utf8Encode s = some b → P.utf8Decode b = some s
  b64_roundtrip : ∀ b, P.b64decode (P.b64encode b) = some b

/-- Degenerate primitives instance used to evaluate the pipeline on
concrete inputs: hashes are zero digests, the cipher is the identity
and the codecs are identities. -/
def toyPrims : Primitives where
  sha256 _ := List.replicate 32 0
  hmacSha256 _ _ := List.replicate 32 0
  bcryptKdf _ _ n _ := List.replicate n 0
  aesCbcEnc _ _ p := p
  aesCbcDec _ _ p := p
  utf8Encode s := some s
  utf8Decode b := some b
  b64encode b := b
  b64decode b := some b

theorem toyPrims_good : GoodPrims toyPrims := by
  constructor <;> intros <;> simp [toyPrims, List.length_replicate]
  case utf8_roundtrip s b h => simpa [toyPrims] using h.symm

/-- Model of `funcs.parse_message`: a str is UTF-8 encoded (the strip
result is overwritten by the encoding of the original), while a bytes
value is whitespace-stripped by the dangling `message.strip()` result. -/
def parse_message (P : Primitives) : PyData → Except CoreErr Bytes
  | .ofStr s =>
      match P.utf8Encode s with
      | some b => .ok b
      | none => .error .unicodeEncodeError
  | .ofBytes b => .ok (pyBytesStrip b)

/-- Model of `funcs.parse_encrypted_message`: a str is UTF-8 encoded and
then URL-safe base64 decoded; bytes are passed through. -/
def parse_encrypted_message (P : Primitives) : PyData → Except CoreErr Bytes
  | .ofStr s =>
      match P.utf8Encode s with
      | some u =>
          match P.b64decode u with
          | some b => .ok b
          | none => .error .binasciiError
      | none => .error .unicodeEncodeError
  | .ofBytes b => .ok b

/-- Model of `funcs.check_iterations`: raise `IterationsOutofRangeError`
outside the closed range, return the count otherwise. -/
def check_iterations (iterations : Nat) : Except CoreErr Nat :=
  if iterations < Size.MIN_ITERATIONS ∨ iterations > Size.MAX_ITERATIONS then
    .error (.iterationsOutOfRange iterations)
  else .ok iterations

/-- Model of `funcs.intensive_KDF`: bcrypt kdf over the UTF-8 encoded
main key and the salt or pepper, producing `Size.AES_KEY` bytes. -/
def intensive_KDF (P : Primitives) (mainkey : PyStr) (salt_pepper : Bytes)
    (iterations : Nat) : Except CoreErr Bytes :=
  match P.utf8Encode mainkey with
  | some pw => .ok (P.bcryptKdf pw salt_pepper Size.AES_KEY iterations)
  | none => .error .unicodeEncodeError

/-- Model of `funcs.blazingly_fast_KDF`: a single SHA-256 digest of the
UTF-8 encoded key concatenated with the salt or pepper. -/
def blazingly_fast_KDF (P : Primitives) (key : PyStr) (salt : Bytes) :
    Except CoreErr Bytes :=
  match P.utf8Encode key with
  | some use_key => .ok (P.sha256 (use_key ++ salt))
  | none => .error .unicodeEncodeError

/-- Model of `funcs.use_KDF`: dispatch on the `compute_intensively`
flag; the fast path receives no iteration count. -/
def use_KDF (P : Primitives) (compute_intensively : Bool) (key : PyStr)
    (salt_pepper : Bytes) (iterations : Nat) : Except CoreErr Bytes :=
  if compute_intensively then intensive_KDF P key salt_pepper iterations
  else blazingly_fast_KDF P key salt_pepper

/-- Model of `EncBase.key_verify`: strip the key, hex-decode it
(`ValueError` on invalid hex) and require at least `Size.MAIN_KEY`
decoded bytes. -/
def key_verify (key : PyStr) : Except CoreErr Unit :=
  match bytesFromhex (pyStrStrip key) with
  | none => .error .valueError
  | some kb =>
      if kb.length < Size.MAIN_KEY then .error .valueError else .ok ()

/-- Model of `EncBase._signtature_KDF_bytes` (source spelling kept):
pack `UseKDF.SLOW` when computing intensively, `UseKDF.FAST` otherwise. -/
def signtature_KDF_bytes (compute_intensively : Bool) : Bytes :=
  packU32 (if compute_intensively then UseKDF.SLOW else UseKDF.FAST)

/-- State assembled by `EncBase.__init__`. -/
structure EncState where
  message : Bytes
  mainkey : PyStr
  compute_intensively : Bool
  iterations : Nat
  iv : Bytes
  salt : Bytes
  pepper : Bytes
  enc_key : Bytes
  hmac_key : Bytes

/-- Model of `EncBase.__init__`.  The randomness drawn by
`cipher_randomizers` enters as the `iv`, `salt` and `pepper` arguments;
the order of operations (parse, check iterations, verify key, draw
randomness, derive the two subkeys) matches the source and is recorded
in the event trace. -/
def EncBase.init (P : Primitives) (message : PyData) (mainkey : PyStr)
    (iterations : Nat) (compute_intensively : Bool)
    (iv salt pepper : Bytes) : Except CoreErr EncState × List Event :=
  match parse_message P message with
  | .error e => (.error e, [])
  | .ok msg =>
    match check_iterations iterations with
    | .error e => (.error e, [])
    | .ok _ =>
      match key_verify mainkey with
      | .error e => (.error e, [])
      | .ok _ =>
        match use_KDF P compute_intensively mainkey salt iterations with
        | .error e => (.error e, [.drawRandom, .kdfDerive])
        | .ok ek =>
          match use_KDF P compute_intensively mainkey pepper iterations with
          | .error e => (.error e, [.drawRandom, .kdfDerive, .kdfDerive])
          | .ok hk =>
            (.ok ⟨msg, mainkey, compute_intensively, iterations,
                  iv, salt, pepper, ek, hk⟩,
             [.drawRandom, .kdfDerive, .kdfDerive])

/-- Model of `EncBase._padded_message`. -/
def EncBase.padded_message (st : EncState) : Bytes :=
  pkcs7Pad Size.BLOCK st.message

/-- Model of `EncBase._ciphertext`: CBC encryption of the padded
message (the finalize call on a second, fresh encryptor contributes
nothing for block-aligned input). -/
def EncBase.ciphertext (P : Primitives) (st : EncState) : Bytes :=
  P.aesCbcEnc st.enc_key st.iv (EncBase.padded_message st)

/-- Model of `EncBase._hmac_final`: HMAC-SHA256 keyed with the
pepper-derived subkey over IV, salt, pepper, packed iterations, packed
KDF signature and ciphertext, in that order. -/
def EncBase.hmac_final (P : Primitives) (st : EncState) : Bytes :=
  P.hmacSha256 st.hmac_key
    (st.iv ++ st.salt ++ st.pepper ++ packU32 st.iterations ++
     signtature_KDF_bytes st.compute_intensively ++ EncBase.ciphertext P st)

/-- Model of the raw bytes assembled by `EncBase.encrypt`. -/
def EncBase.encryptRaw (P : Primitives) (st : EncState) : Bytes :=
  EncBase.hmac_final P st ++ st.iv ++ st.salt ++ st.pepper ++
  packU32 st.iterations ++ signtature_KDF_bytes st.compute_intensively ++
  EncBase.ciphertext P st

/-- Full `EncBase` pipeline: construction followed by `encrypt`
(`get_bytes=True`); `encrypt` invokes the AES encryptor inside
`_hmac_final` and again for the trailing ciphertext field. -/
def encBasePipeline (P : Primitives) (message : PyData) (mainkey : PyStr)
    (iterations : Nat) (compute_intensively : Bool)
    (iv salt pepper : Bytes) : Except CoreErr Bytes × List Event :=
  match EncBase.init P message mainkey iterations compute_intensively iv salt pepper with
  | (.error e, tr) => (.error e, tr)
  | (.ok st, tr) =>
      (.ok (EncBase.encryptRaw P st),
       tr ++ [.aesEncrypt, .hmacCompute, .aesEncrypt])

/-- State assembled by `DecBase.__init__`. -/
structure DecState where
  message : Bytes
  key : PyStr
  rec_hmac : Bytes
  rec_iv : Bytes
  rec_salt : Bytes
  rec_pepper : Bytes
  rec_iters_raw : Bytes
  rec_KDF_signature_raw : Bytes
  rec_iterations : Nat
  rec_KDF_signature : Nat
  rec_ciphertext : Bytes
  dec_key : Bytes
  hmac_k : Bytes

/-- Model of `DecBase._calculated_hmac`: HMAC-SHA256 with the recovered
pepper-derived subkey over the recovered IV, salt, pepper, raw
iteration bytes, raw signature bytes and ciphertext. -/
def DecBase.calculated_hmac (P : Primitives) (st : DecState) : Bytes :=
  P.hmacSha256 st.hmac_k
    (st.rec_iv ++ st.rec_salt ++ st.rec_pepper ++ st.rec_iters_raw ++
     st.rec_KDF_signature_raw ++ st.rec_ciphertext)

/-- Model of `DecBase._verify_hmac`: `hmac.compare_digest` of the
recomputed tag against the carried tag, functionally an equality test. -/
def DecBase.verify_hmac (P : Primitives) (st : DecState) : Bool :=
  DecBase.calculated_hmac P st == st.rec_hmac

/-- Model of `DecBase.__init__`: normalize the input to raw bytes,
slice the fixed-offset fields (Python slicing truncates silently),
unpack the iteration count and KDF signature (`struct.error` on short
buffers), bounds-check the recovered count, derive the two subkeys with
the algorithm selected by the recovered signature, then verify the
HMAC, raising `MessageTamperingError` on mismatch. -/
def DecBase.init (P : Primitives) (message : PyData) (mainkey : PyStr) :
    Except CoreErr DecState × List Event :=
  match parse_encrypted_message P message with
  | .error e => (.error e, [])
  | .ok msg =>
    let _i := Size.IV
    let _s := Size.SALT
    let _p := Size.PEPPER
    let _h := Size.HMAC
    let _fi := Size.StructPack.FOR_ITERATIONS
    let _fk := Size.StructPack.FOR_KDF_SIGNATURE
    let rec_hmac := msg.take _h
    let rec_iv := (msg.drop _h).take _i
    let rec_salt := (msg.drop (_h + _i)).take _s
    let rec_pepper := (msg.drop (_h + _i + _s)).take _p
    let rec_iters_raw := (msg.drop (_h + _i + _s + _p)).take _fi
    let rec_KDF_signature_raw := (msg.drop (_h + _i + _s + _p + _fi)).take _fk
    match unpackU32 rec_iters_raw with
    | .error e => (.error e, [])
    | .ok rec_iterations =>
      match unpackU32 rec_KDF_signature_raw with
      | .error e => (.error e, [])
      | .ok rec_KDF_signature =>
        match check_iterations rec_iterations with
        | .error e => (.error e, [])
        | .ok _ =>
          let rec_ciphertext := msg.drop (_h + _i + _s + _p + _fi + _fk)
          let compute_intensively := rec_KDF_signature == UseKDF.SLOW
          match use_KDF P compute_intensively mainkey rec_salt rec_iterations with
          | .error e => (.error e, [.kdfDerive])
          | .ok dk =>
            match use_KDF P compute_intensively mainkey rec_pepper rec_iterations with
            | .error e => (.error e, [.kdfDerive, .kdfDerive])
            | .ok hk =>
              let st : DecState :=
                ⟨msg, mainkey, rec_hmac, rec_iv, rec_salt, rec_pepper,
                 rec_iters_raw, rec_KDF_signature_raw, rec_iterations,
                 rec_KDF_signature, rec_ciphertext, dk, hk⟩
              if DecBase.verify_hmac P st then
                (.ok st, [.kdfDerive, .kdfDerive, .hmacCompute, .tagCompare])
              else
                (.error .messageTampering,
                 [.kdfDerive, .kdfDerive, .hmacCompute, .tagCompare])

/-- Model of `DecBase._pre_unpadding`: CBC decryption of the recovered
ciphertext (block-aligned on every authenticated envelope). -/
def DecBase.pre_unpadding (P : Primitives) (st : DecState) : Bytes :=
  P.aesCbcDec st.dec_key st.rec_iv st.rec_ciphertext

/-- Model of `DecBase._unpadded_message`: PKCS7 unpadding of the
decrypted bytes. -/
def DecBase.unpadded_message (P : Primitives) (st : DecState) :
    Except CoreErr Bytes :=
  pkcs7Unpad Size.BLOCK (DecBase.pre_unpadding P st)

/-- Full `DecBase` pipeline returning raw bytes: construction followed
by `decrypt` with `get_bytes=True`. -/
def decBasePipeline (P : Primitives) (message : PyData) (mainkey : PyStr) :
    Except CoreErr Bytes × List Event :=
  match DecBase.init P message mainkey with
  | (.error e, tr) => (.error e, tr)
  | (.ok st, tr) =>
      match DecBase.unpadded_message P st with
      | .error e => (.error e, tr ++ [.aesDecrypt])
      | .ok raw => (.ok raw, tr ++ [.aesDecrypt])

/-- Full `DecBase` pipeline returning a str: construction followed by
`decrypt` with the default `get_bytes=False`, which UTF-8 decodes the
unpadded bytes. -/
def decBasePipelineStr (P : Primitives) (message : PyData) (mainkey : PyStr) :
    Except CoreErr PyStr × List Event :=
  match decBasePipeline P message mainkey with
  | (.error e, tr) => (.error e, tr)
  | (.ok raw, tr) =>
      match P.utf8Decode raw with
      | some s => (.ok s, tr)
      | none => (.error .unicodeDecodeError, tr)

/-- Model of `Crypt.key_verify` (datacrypt.py): 1 when the stripped key
is valid hex decoding to exactly 32 bytes, 0 when it is valid hex of
any other length, -1 when hex decoding fails. -/
def Crypt.key_verify (key : PyStr) : Int :=
  match bytesFromhex (pyStrStrip key) with
  | some a => if a.length = 32 then 1 else 0
  | none => -1

/-- Model of `Crypt.__post_init__`: raise `KeyLengthError` unless
`key_verify` returns 1. -/
def Crypt.post_init (key : PyStr) : Except DataErr Unit :=
  if Crypt.key_verify key ≠ 1 then .error .keyLength else .ok ()

/-- Model of `Crypt.encrypt`: the empty-content check precedes the try
block; every exception escaping the core pipeline is replaced by a
`CryptError` chaining its cause.  The str form is the URL-safe base64
encoding of the raw envelope. -/
def Crypt.encrypt (P : Primitives) (data : PyData) (key : PyStr)
    (intensive_compute : Bool) (iteration_rounds : Nat)
    (iv salt pepper : Bytes) (get_bytes : Bool) :
    Except DataErr PyData × List Event :=
  if pyTruthy data then
    match encBasePipeline P data key iteration_rounds intensive_compute iv salt pepper with
    | (.ok raw, tr) =>
        if get_bytes then (.ok (.ofBytes raw), tr)
        else (.ok (.ofStr (P.b64encode raw)), tr)
    | (.error e, tr) => (.error (.cryptError e), tr)
  else (.error .emptyContent, [])

/-- Model of `Crypt.decrypt`: the empty-content check precedes the try
block; every exception escaping `DecBase` construction or `decrypt` is
replaced by a `CryptError` chaining its cause. -/
def Crypt.decrypt (P : Primitives) (data : PyData) (key : PyStr)
    (get_bytes : Bool) : Except DataErr PyData × List Event :=
  if pyTruthy data then
    if get_bytes then
      match decBasePipeline P data key with
      | (.ok raw, tr) => (.ok (.ofBytes raw), tr)
      | (.error e, tr) => (.error (.cryptError e), tr)
    else
      match decBasePipelineStr P data key with
      | (.ok s, tr) => (.ok (.ofStr s), tr)
      | (.error e, tr) => (.error (.cryptError e), tr)
  else (.error .emptyContent, [])

theorem length_pkcs7Pad (m : Bytes) :
    (pkcs7Pad Size.BLOCK m).length = m.length + (16 - m.length % 16) := by
  simp [pkcs7Pad, Size.BLOCK]

theorem pkcs7Unpad_pkcs7Pad (m : Bytes) :
    pkcs7Unpad Size.BLOCK (pkcs7Pad Size.BLOCK m) = .ok m := by
  have hmod : m.length % 16 < 16 := Nat.mod_lt _ (by norm_num)
  have hp0 : 16 - m.length % 16 ≠ 0 := by omega
  have hlast : (pkcs7Pad Size.BLOCK m).getLast? = some (16 - m.length % 16) := by
    simp only [pkcs7Pad, Size.BLOCK]
    rw [List.getLast?_append_of_ne_nil]
    · simp [List.getLast?_replicate, hp0]
    · simp
      omega
  have hlen := length_pkcs7Pad m
  have hbs : Size.BLOCK / 8 = 16 := by norm_num [Size.BLOCK]
  have hsub : m.length + (16 - m.length % 16) - (16 - m.length % 16) = m.length := by
    omega
  unfold pkcs7Unpad
  rw [hlast]
  dsimp only
  rw [hbs]
  rw [if_neg (by rw [hlen]; omega)]
  rw [if_neg (by omega)]
  rw [if_neg ?hpad]
  case hpad =>
    rw [hlen, hsub]
    push_neg
    simp only [pkcs7Pad, Size.BLOCK]
    show List.drop m.length (m ++ _) = _
    rw [List.drop_left]
  rw [hlen, hsub]
  simp only [pkcs7Pad, Size.BLOCK]
  show Except.ok (List.take m.length (m ++ _)) = _
  rw [List.take_left]

theorem packU32_length (n : Nat) : (packU32 n).length = 4 := rfl

theorem unpackU32_packU32 (n : Nat) (h : n < 2 ^ 32) :
    unpackU32 (packU32 n) = .ok n := by
  simp only [packU32, unpackU32]
  congr 1
  omega

theorem unpackU32_short (l : Bytes) (h : l.length ≠ 4) :
    unpackU32 l = .error .structError := by
  unfold unpackU32
  split
  · simp_all
  · rfl

theorem check_iterations_ok (n : Nat) (h1 : Size.MIN_ITERATIONS ≤ n)
    (h2 : n ≤ Size.MAX_ITERATIONS) : check_iterations n = .ok n := by
  unfold check_iterations
  rw [if_neg]
  push_neg
  exact ⟨h1, h2⟩

theorem envelope_slices (tag iv salt pepper i4 s4 ct : Bytes)
    (ht : tag.length = 32) (hiv : iv.length = 16) (hs : salt.length = 16)
    (hp : pepper.length = 16) (hi4 : i4.length = 4) (hs4 : s4.length = 4) :
    (tag ++ (iv ++ (salt ++ (pepper ++ (i4 ++ (s4 ++ ct)))))).take 32 = tag ∧
    ((tag ++ (iv ++ (salt ++ (pepper ++ (i4 ++ (s4 ++ ct)))))).drop 32).take 16 = iv ∧
    ((tag ++ (iv ++ (salt ++ (pepper ++ (i4 ++ (s4 ++ ct)))))).drop 48).take 16 = salt ∧
    ((tag ++ (iv ++ (salt ++ (pepper ++ (i4 ++ (s4 ++ ct)))))).drop 64).take 16 = pepper ∧
    ((tag ++ (iv ++ (salt ++ (pepper ++ (i4 ++ (s4 ++ ct)))))).drop 80).take 4 = i4 ∧
    ((tag ++ (iv ++ (salt ++ (pepper ++ (i4 ++ (s4 ++ ct)))))).drop 84).take 4 = s4 ∧
    (tag ++ (iv ++ (salt ++ (pepper ++ (i4 ++ (s4 ++ ct)))))).drop 88 = ct := by
  set env := tag ++ (iv ++ (salt ++ (pepper ++ (i4 ++ (s4 ++ ct))))) with henv
  have d32 : env.drop 32 = iv ++ (salt ++ (pepper ++ (i4 ++ (s4 ++ ct)))) :=
    List.drop_left' ht
  have d48 : env.drop 48 = salt ++ (pepper ++ (i4 ++ (s4 ++ ct))) := by
    have : env.drop 48 = (env.drop 32).drop 16 := by
      rw [List.drop_drop]
    rw [this, d32, List.drop_left' hiv]
  have d64 : env.drop 64 = pepper ++ (i4 ++ (s4 ++ ct)) := by
    have : env.drop 64 = (env.drop 48).drop 16 := by
      rw [List.drop_drop]
    rw [this, d48, List.drop_left' hs]
  have d80 : env.drop 80 = i4 ++ (s4 ++ ct) := by
    have : env.drop 80 = (env.drop 64).drop 16 := by
      rw [List.drop_drop]
    rw [this, d64, List.drop_left' hp]
  have d84 : env.drop 84 = s4 ++ ct := by
    have : env.drop 84 = (env.drop 80).drop 4 := by
      rw [List.drop_drop]
    rw [this, d80, List.drop_left' hi4]
  have d88 : env.drop 88 = ct := by
    have : env.drop 88 = (env.drop 84).drop 4 := by
      rw [List.drop_drop]
    rw [this, d84, List.drop_left' hs4]
  refine ⟨List.take_left' ht, ?_, ?_, ?_, ?_, ?_, d88⟩
  · rw [d32]; exact List.take_left' hiv
  · rw [d48]; exact List.take_left' hs
  · rw [d64]; exact List.take_left' hp
  · rw [d80]; exact List.take_left' hi4
  · rw [d84]; exact List.take_left' hs4

theorem encBasePipeline_eq_ok (P : Primitives) (message : PyData) (key : PyStr)
    (iterations : Nat) (ci : Bool) (iv salt pepper : Bytes)
    (msgB ek hk : Bytes)
    (hpm : parse_message P message = .ok msgB)
    (hchk : check_iterations iterations = .ok iterations)
    (hkv : key_verify key = .ok ())
    (hk1 : use_KDF P ci key salt iterations = .ok ek)
    (hk2 : use_KDF P ci key pepper iterations = .ok hk) :
    encBasePipeline P message key iterations ci iv salt pepper =
      (.ok (EncBase.encryptRaw P ⟨msgB, key, ci, iterations, iv, salt, pepper, ek, hk⟩),
       [.drawRandom, .kdfDerive, .kdfDerive, .aesEncrypt, .hmacCompute, .aesEncrypt]) := by
  unfold encBasePipeline EncBase.init
  rw [hpm, hchk, hkv, hk1, hk2]
  rfl

theorem encBasePipeline_ok (P : Primitives) (message : PyData) (key : PyStr)
    (iterations : Nat) (ci : Bool) (iv salt pepper : Bytes)
    (raw : Bytes) (tr : List Event)
    (h : encBasePipeline P message key iterations ci iv salt pepper = (.ok raw, tr)) :
    ∃ msgB ek hk,
      parse_message P message = .ok msgB ∧
      check_iterations iterations = .ok iterations ∧
      key_verify key = .ok () ∧
      use_KDF P ci key salt iterations = .ok ek ∧
      use_KDF P ci key pepper iterations = .ok hk ∧
      tr = [.drawRandom, .kdfDerive, .kdfDerive, .aesEncrypt, .hmacCompute, .aesEncrypt] ∧
      raw = EncBase.encryptRaw P ⟨msgB, key, ci, iterations, iv, salt, pepper, ek, hk⟩ := by
  unfold encBasePipeline EncBase.init at h
  cases hpm : parse_message P message with
  | error e => rw [hpm] at h; simp at h
  | ok msgB =>
  rw [hpm] at h
  cases hchk : check_iterations iterations with
  | error e => rw [hchk] at h; simp at h
  | ok v =>
  rw [hchk] at h
  cases hkv : key_verify key with
  | error e => rw [hkv] at h; simp at h
  | ok u =>
  rw [hkv] at h
  cases hk1 : use_KDF P ci key salt iterations with
  | error e => rw [hk1] at h; simp at h
  | ok ek =>
  rw [hk1] at h
  cases hk2 : use_KDF P ci key pepper iterations with
  | error e => rw [hk2] at h; simp at h
  | ok hk =>
  rw [hk2] at h
  simp only [Prod.mk.injEq] at h
  obtain ⟨h1, h2⟩ := h
  have hv : v = iterations := by
    unfold check_iterations at hchk
    split at hchk
    · simp at hchk
    · exact (Except.ok.inj hchk).symm
  subst hv
  refine ⟨msgB, ek, hk, rfl, rfl, ?_, rfl, rfl, h2.symm, (Except.ok.inj h1).symm⟩
  cases u
  rfl

theorem signtature_length (ci : Bool) : (signtature_KDF_bytes ci).length = 4 := by
  cases ci <;> rfl

theorem decBasePipeline_of_enc (P : Primitives) (hP : GoodPrims P) (key : PyStr)
    (msgB ek hk : Bytes) (iterations : Nat) (ci : Bool) (iv salt pepper : Bytes)
    (hIterLo : Size.MIN_ITERATIONS ≤ iterations)
    (hIterHi : iterations ≤ Size.MAX_ITERATIONS)
    (hiv : iv.length = 16) (hsalt : salt.length = 16) (hpep : pepper.length = 16)
    (hk1 : use_KDF P ci key salt iterations = .ok ek)
    (hk2 : use_KDF P ci key pepper iterations = .ok hk) :
    decBasePipeline P
      (.ofBytes (EncBase.encryptRaw P ⟨msgB, key, ci, iterations, iv, salt, pepper, ek, hk⟩))
      key =
    (.ok msgB, [.kdfDerive, .kdfDerive, .hmacCompute, .tagCompare, .aesDecrypt]) := by
  have htag : (EncBase.hmac_final P ⟨msgB, key, ci, iterations, iv, salt, pepper, ek, hk⟩).length = 32 :=
    hP.hmac_len _ _
  obtain ⟨t1, t2, t3, t4, t5, t6, t7⟩ :=
    envelope_slices (EncBase.hmac_final P ⟨msgB, key, ci, iterations, iv, salt, pepper, ek, hk⟩)
      iv salt pepper (packU32 iterations) (signtature_KDF_bytes ci)
      (EncBase.ciphertext P ⟨msgB, key, ci, iterations, iv, salt, pepper, ek, hk⟩)
      htag hiv hsalt hpep (packU32_length iterations) (signtature_length ci)
  have henv : EncBase.encryptRaw P ⟨msgB, key, ci, iterations, iv, salt, pepper, ek, hk⟩ =
      EncBase.hmac_final P ⟨msgB, key, ci, iterations, iv, salt, pepper, ek, hk⟩ ++
        (iv ++ (salt ++ (pepper ++ (packU32 iterations ++
          (signtature_KDF_bytes ci ++
            EncBase.ciphertext P ⟨msgB, key, ci, iterations, iv, salt, pepper, ek, hk⟩))))) := by
    simp [EncBase.encryptRaw, List.append_assoc]
  have hlt : iterations < 2 ^ 32 := by
    have := hIterHi
    simp [Size.MAX_ITERATIONS] at this
    omega
  have hsig : unpackU32 (signtature_KDF_bytes ci) =
      .ok (if ci then UseKDF.SLOW else UseKDF.FAST) := by
    unfold signtature_KDF_bytes
    exact unpackU32_packU32 _ (by cases ci <;> simp [UseKDF.SLOW, UseKDF.FAST])
  have hci : ((if ci then UseKDF.SLOW else UseKDF.FAST) == UseKDF.SLOW) = ci := by
    cases ci <;> rfl
  unfold decBasePipeline DecBase.init
  rw [henv]
  dsimp only [parse_encrypted_message]
  simp only [Size.HMAC, Size.IV, Size.SALT, Size.PEPPER,
    Size.StructPack.FOR_ITERATIONS, Size.StructPack.FOR_KDF_SIGNATURE, Nat.reduceAdd]
  rw [t1, t2, t3, t4, t5, t6, t7]
  rw [unpackU32_packU32 iterations hlt, hsig]
  dsimp only
  rw [check_iterations_ok iterations hIterLo hIterHi]
  dsimp only
  rw [hci, hk1, hk2]
  simp only [DecBase.verify_hmac, DecBase.calculated_hmac, EncBase.hmac_final,
    EncBase.ciphertext, EncBase.padded_message]
  simp only [beq_self_eq_true, if_true]
  simp only [DecBase.unpadded_message, DecBase.pre_unpadding]
  rw [hP.aesDec_enc]
  rw [pkcs7Unpad_pkcs7Pad]
  rfl

theorem unpackU32_error (l : Bytes) (e : CoreErr) (h : unpackU32 l = .error e) :
    e = .structError := by
  unfold unpackU32 at h
  split at h
  · simp at h
  · simp only [Except.error.injEq] at h
    exact h.symm

theorem parse_encrypted_message_error (P : Primitives) (m : PyData) (e : CoreErr)
    (h : parse_encrypted_message P m = .error e) :
    e = .unicodeEncodeError ∨ e = .binasciiError := by
  unfold parse_encrypted_message at h
  cases m with
  | ofBytes b => simp at h
  | ofStr s =>
    dsimp only at h
    cases hu : P.utf8Encode s with
    | none => rw [hu] at h; simp at h; exact Or.inl h.symm
    | some u =>
      rw [hu] at h
      dsimp only at h
      cases hb : P.b64decode u with
      | none => rw [hb] at h; simp at h; exact Or.inr h.symm
      | some b => rw [hb] at h; simp at h

theorem check_iterations_error (n : Nat) (e : CoreErr)
    (h : check_iterations n = .error e) : e = .iterationsOutOfRange n := by
  unfold check_iterations at h
  split at h
  · simp only [Except.error.injEq] at h
    exact h.symm
  · simp at h

theorem use_KDF_error (P : Primitives) (ci : Bool) (key : PyStr) (sp : Bytes)
    (iters : Nat) (e : CoreErr) (h : use_KDF P ci key sp iters = .error e) :
    e = .unicodeEncodeError := by
  unfold use_KDF intensive_KDF blazingly_fast_KDF at h
  cases hu : P.utf8Encode key with
  | none => rw [hu] at h; cases ci <;> simp at h <;> exact h.symm
  | some pw => rw [hu] at h; cases ci <;> simp at h

theorem pkcs7Unpad_error (bits : Nat) (d : Bytes) (e : CoreErr)
    (h : pkcs7Unpad bits d = .error e) : e = .invalidUnpadding := by
  unfold pkcs7Unpad at h
  dsimp only at h
  split at h
  · simp only [Except.error.injEq] at h
    exact h.symm
  · split at h
    · simp only [Except.error.injEq] at h
      exact h.symm
    · split at h
      · simp only [Except.error.injEq] at h
        exact h.symm
      · split at h
        · simp only [Except.error.injEq] at h
          exact h.symm
        · simp at h

theorem decBaseInit_ok (P : Primitives) (message : PyData) (key : PyStr)
    (st : DecState) (tr : List Event)
    (h : DecBase.init P message key = (.ok st, tr)) :
    parse_encrypted_message P message = .ok st.message ∧
    st.key = key ∧
    st.rec_hmac = st.message.take 32 ∧
    st.rec_iv = (st.message.drop 32).take 16 ∧
    st.rec_salt = (st.message.drop 48).take 16 ∧
    st.rec_pepper = (st.message.drop 64).take 16 ∧
    st.rec_iters_raw = (st.message.drop 80).take 4 ∧
    st.rec_KDF_signature_raw = (st.message.drop 84).take 4 ∧
    st.rec_ciphertext = st.message.drop 88 ∧
    unpackU32 st.rec_iters_raw = .ok st.rec_iterations ∧
    unpackU32 st.rec_KDF_signature_raw = .ok st.rec_KDF_signature ∧
    check_iterations st.rec_iterations = .ok st.rec_iterations ∧
    use_KDF P (st.rec_KDF_signature == UseKDF.SLOW) key st.rec_salt
      st.rec_iterations = .ok st.dec_key ∧
    use_KDF P (st.rec_KDF_signature == UseKDF.SLOW) key st.rec_pepper
      st.rec_iterations = .ok st.hmac_k ∧
    DecBase.calculated_hmac P st = st.rec_hmac ∧
    tr = [.kdfDerive, .kdfDerive, .hmacCompute, .tagCompare] := by
  unfold DecBase.init at h
  cases hpm : parse_encrypted_message P message with
  | error e => rw [hpm] at h; simp at h
  | ok msg =>
  rw [hpm] at h
  dsimp only at h
  simp only [Size.HMAC, Size.IV, Size.SALT, Size.PEPPER,
    Size.StructPack.FOR_ITERATIONS, Size.StructPack.FOR_KDF_SIGNATURE,
    Nat.reduceAdd] at h
  cases hit : unpackU32 ((msg.drop 80).take 4) with
  | error e => rw [hit] at h; simp at h
  | ok n =>
  rw [hit] at h
  dsimp only at h
  cases hsg : unpackU32 ((msg.drop 84).take 4) with
  | error e => rw [hsg] at h; simp at h
  | ok sg =>
  rw [hsg] at h
  dsimp only at h
  cases hch : check_iterations n with
  | error e => rw [hch] at h; simp at h
  | ok v =>
  rw [hch] at h
  dsimp only at h
  cases hdk : use_KDF P (sg == UseKDF.SLOW) key ((msg.drop 48).take 16) n with
  | error e => rw [hdk] at h; simp at h
  | ok dk =>
  rw [hdk] at h
  dsimp only at h
  cases hhk : use_KDF P (sg == UseKDF.SLOW) key ((msg.drop 64).take 16) n with
  | error e => rw [hhk] at h; simp at h
  | ok hk =>
  rw [hhk] at h
  dsimp only at h
  split at h
  case isTrue hver =>
    rw [Prod.mk.injEq] at h
    obtain ⟨h1, h2⟩ := h
    have hst := Except.ok.inj h1
    subst hst
    subst h2
    have hch2 : check_iterations n = .ok n := by
      unfold check_iterations at hch ⊢
      split at hch
      · simp at hch
      · rename_i hc
        rw [if_neg hc]
    refine ⟨rfl, rfl, rfl, rfl, rfl, rfl, rfl, rfl, rfl, hit, hsg, hch2, hdk, hhk,
      ?_, rfl⟩
    exact eq_of_beq (by rwa [DecBase.verify_hmac] at hver)
  case isFalse hver => simp at h

theorem decBaseInit_noAES (P : Primitives) (message : PyData) (key : PyStr)
    (res : Except CoreErr DecState) (tr : List Event)
    (h : DecBase.init P message key = (res, tr)) : Event.aesDecrypt ∉ tr := by
  unfold DecBase.init at h
  cases hpm : parse_encrypted_message P message with
  | error e =>
    rw [hpm] at h
    rw [Prod.mk.injEq] at h
    obtain ⟨h1, h2⟩ := h
    subst h2
    decide
  | ok msg =>
  rw [hpm] at h
  dsimp only at h
  cases hit : unpackU32 ((msg.drop (Size.HMAC + Size.IV + Size.SALT + Size.PEPPER)).take Size.StructPack.FOR_ITERATIONS) with
  | error e =>
    rw [hit] at h
    rw [Prod.mk.injEq] at h
    obtain ⟨h1, h2⟩ := h
    subst h2
    decide
  | ok n =>
  rw [hit] at h
  dsimp only at h
  cases hsg : unpackU32 ((msg.drop (Size.HMAC + Size.IV + Size.SALT + Size.PEPPER + Size.StructPack.FOR_ITERATIONS)).take Size.StructPack.FOR_KDF_SIGNATURE) with
  | error e =>
    rw [hsg] at h
    rw [Prod.mk.injEq] at h
    obtain ⟨h1, h2⟩ := h
    subst h2
    decide
  | ok sg =>
  rw [hsg] at h
  dsimp only at h
  cases hch : check_iterations n with
  | error e =>
    rw [hch] at h
    rw [Prod.mk.injEq] at h
    obtain ⟨h1, h2⟩ := h
    subst h2
    decide
  | ok v =>
  rw [hch] at h
  dsimp only at h
  cases hdk : use_KDF P (sg == UseKDF.SLOW) key ((msg.drop (Size.HMAC + Size.IV)).take Size.SALT) n with
  | error e =>
    rw [hdk] at h
    rw [Prod.mk.injEq] at h
    obtain ⟨h1, h2⟩ := h
    subst h2
    decide
  | ok dk =>
  rw [hdk] at h
  dsimp only at h
  cases hhk : use_KDF P (sg == UseKDF.SLOW) key ((msg.drop (Size.HMAC + Size.IV + Size.SALT)).take Size.PEPPER) n with
  | error e =>
    rw [hhk] at h
    rw [Prod.mk.injEq] at h
    obtain ⟨h1, h2⟩ := h
    subst h2
    decide
  | ok hk =>
  rw [hhk] at h
  dsimp only at h
  split at h <;> rw [Prod.mk.injEq] at h <;> obtain ⟨h1, h2⟩ := h <;> subst h2 <;>
    decide

theorem decBaseInit_tamper_trace (P : Primitives) (message : PyData) (key : PyStr)
    (tr : List Event)
    (h : DecBase.init P message key = (.error .messageTampering, tr)) :
    tr = [.kdfDerive, .kdfDerive, .hmacCompute, .tagCompare] := by
  unfold DecBase.init at h
  cases hpm : parse_encrypted_message P message with
  | error e =>
    rw [hpm] at h
    rw [Prod.mk.injEq] at h
    obtain ⟨h1, h2⟩ := h
    rcases parse_encrypted_message_error P message e hpm with he | he <;>
      (subst he; simp at h1)
  | ok msg =>
  rw [hpm] at h
  dsimp only at h
  simp only [Size.HMAC, Size.IV, Size.SALT, Size.PEPPER,
    Size.StructPack.FOR_ITERATIONS, Size.StructPack.FOR_KDF_SIGNATURE,
    Nat.reduceAdd] at h
  cases hit : unpackU32 ((msg.drop 80).take 4) with
  | error e =>
    rw [hit] at h
    rw [Prod.mk.injEq] at h
    obtain ⟨h1, h2⟩ := h
    have := unpackU32_error _ _ hit
    subst this
    simp at h1
  | ok n =>
  rw [hit] at h
  dsimp only at h
  cases hsg : unpackU32 ((msg.drop 84).take 4) with
  | error e =>
    rw [hsg] at h
    rw [Prod.mk.injEq] at h
    obtain ⟨h1, h2⟩ := h
    have := unpackU32_error _ _ hsg
    subst this
    simp at h1
  | ok sg =>
  rw [hsg] at h
  dsimp only at h
  cases hch : check_iterations n with
  | error e =>
    rw [hch] at h
    rw [Prod.mk.injEq] at h
    obtain ⟨h1, h2⟩ := h
    have := check_iterations_error _ _ hch
    subst this
    simp at h1
  | ok v =>
  rw [hch] at h
  dsimp only at h
  cases hdk : use_KDF P (sg == UseKDF.SLOW) key ((msg.drop 48).take 16) n with
  | error e =>
    rw [hdk] at h
    rw [Prod.mk.injEq] at h
    obtain ⟨h1, h2⟩ := h
    have := use_KDF_error _ _ _ _ _ _ hdk
    subst this
    simp at h1
  | ok dk =>
  rw [hdk] at h
  dsimp only at h
  cases hhk : use_KDF P (sg == UseKDF.SLOW) key ((msg.drop 64).take 16) n with
  | error e =>
    rw [hhk] at h
    rw [Prod.mk.injEq] at h
    obtain ⟨h1, h2⟩ := h
    have := use_KDF_error _ _ _ _ _ _ hhk
    subst this
    simp at h1
  | ok hk =>
  rw [hhk] at h
  dsimp only at h
  split at h
  · rw [Prod.mk.injEq] at h
    obtain ⟨h1, h2⟩ := h
    simp at h1
  · rw [Prod.mk.injEq] at h
    obtain ⟨h1, h2⟩ := h
    exact h2.symm

/-- Sample long-term key: 64 zero characters, decoding to 32 zero bytes. -/
def sampleKey : PyStr := List.replicate 64 48

/-- Sample key of 66 zero characters, decoding to 33 zero bytes. -/
def longKey : PyStr := List.replicate 66 48

/-- Sample plaintext, the bytes of the string hello. -/
def sampleMsg : Bytes := [104, 101, 108, 108, 111]

/-- Sixteen zero bytes standing in for one draw of `os.urandom(16)`. -/
def z16 : Bytes := List.replicate 16 0

/-- Envelope produced by encrypting `sampleMsg` under `sampleKey` with
50 iterations of the fast KDF and the degenerate primitives. -/
def sampleEnvelope : Bytes :=
  ((encBasePipeline toyPrims (.ofBytes sampleMsg) sampleKey 50 false
      z16 z16 z16).1.toOption).getD []

/-- C8: the fast derivation algorithm is the SHA-256 digest of the
long-term key bytes concatenated with the entropy, is 32 bytes long,
and is independent of the iteration count. -/
theorem c8_fast_kdf (P : Primitives) (hP : GoodPrims P) (key : PyStr)
    (kb : Bytes) (hkb : P.utf8Encode key = some kb) (entropy : Bytes)
    (i1 i2 : Nat) :
    use_KDF P false key entropy i1 = .ok (P.sha256 (kb ++ entropy)) ∧
    (P.sha256 (kb ++ entropy)).length = 32 ∧
    use_KDF P false key entropy i1 = use_KDF P false key entropy i2 := by
  refine ⟨?_, hP.sha256_len _, ?_⟩ <;>
    simp [use_KDF, blazingly_fast_KDF, hkb]

/-- Witness for C8 at a concrete key and entropy. -/
theorem c8_fast_kdf_witness :
    use_KDF toyPrims false [107] [1, 2] 50 =
      .ok (toyPrims.sha256 ([107] ++ [1, 2])) ∧
    (toyPrims.sha256 ([107] ++ [1, 2])).length = 32 ∧
    use_KDF toyPrims false [107] [1, 2] 50 =
      use_KDF toyPrims false [107] [1, 2] 999 :=
  c8_fast_kdf toyPrims toyPrims_good [107] [107] rfl [1, 2] 50 999

/-- C9: `Crypt.encrypt` and `Crypt.decrypt` on an empty str or bytes
return the empty-content error with an empty event trace, so no
randomness, derivation, HMAC or cipher work happens. -/
theorem c9_empty_input (P : Primitives) (key : PyStr) (intensive : Bool)
    (rounds : Nat) (iv salt pepper : Bytes) (gb : Bool) :
    Crypt.encrypt P (.ofStr []) key intensive rounds iv salt pepper gb =
      (.error .emptyContent, []) ∧
    Crypt.encrypt P (.ofBytes []) key intensive rounds iv salt pepper gb =
      (.error .emptyContent, []) ∧
    Crypt.decrypt P (.ofStr []) key gb = (.error .emptyContent, []) ∧
    Crypt.decrypt P (.ofBytes []) key gb = (.error .emptyContent, []) := by
  refine ⟨rfl, rfl, ?_, ?_⟩ <;> cases gb <;> rfl

/-- C3: every successful encryption produces exactly tag (32 bytes,
HMAC-SHA256) then IV, salt, pepper, the 4-byte big-endian iteration
count, the 4-byte big-endian KDF signature (`UseKDF.SLOW = 0` for the
cost-intensive algorithm, `UseKDF.FAST = 1` for the fast one) and a
ciphertext whose length is a positive multiple of 16. -/
theorem c3_envelope_layout (P : Primitives) (hP : GoodPrims P)
    (message : PyData) (key : PyStr) (iterations : Nat) (ci : Bool)
    (iv salt pepper : Bytes) (hiv : iv.length = Size.IV)
    (hs : salt.length = Size.SALT) (hp : pepper.length = Size.PEPPER)
    (raw : Bytes) (tr : List Event)
    (h : encBasePipeline P message key iterations ci iv salt pepper =
      (.ok raw, tr)) :
    ∃ tag ct,
      raw = tag ++ iv ++ salt ++ pepper ++ packU32 iterations ++
        packU32 (if ci then UseKDF.SLOW else UseKDF.FAST) ++ ct ∧
      tag.length = Size.HMAC ∧
      iv.length = Size.IV ∧ salt.length = Size.SALT ∧
      pepper.length = Size.PEPPER ∧
      (packU32 iterations).length = Size.StructPack.FOR_ITERATIONS ∧
      (packU32 (if ci then UseKDF.SLOW else UseKDF.FAST)).length =
        Size.StructPack.FOR_KDF_SIGNATURE ∧
      0 < ct.length ∧ ct.length % 16 = 0 := by
  obtain ⟨msgB, ek, hk, hpm, hchk, hkv, hk1, hk2, htr, hraw⟩ :=
    encBasePipeline_ok P message key iterations ci iv salt pepper raw tr h
  have hmod : msgB.length % 16 < 16 := Nat.mod_lt _ (by norm_num)
  have hct : (EncBase.ciphertext P
      ⟨msgB, key, ci, iterations, iv, salt, pepper, ek, hk⟩).length =
      msgB.length + (16 - msgB.length % 16) := by
    unfold EncBase.ciphertext EncBase.padded_message
    rw [hP.aesEnc_len]
    exact length_pkcs7Pad msgB
  refine ⟨EncBase.hmac_final P ⟨msgB, key, ci, iterations, iv, salt, pepper, ek, hk⟩,
    EncBase.ciphertext P ⟨msgB, key, ci, iterations, iv, salt, pepper, ek, hk⟩,
    ?_, hP.hmac_len _ _, hiv, hs, hp, rfl, rfl, ?_, ?_⟩
  · rw [hraw]
    rfl
  · omega
  · omega

/-- Witness for C3 on a concrete encryption. -/
theorem c3_envelope_layout_witness :
    ∃ tag ct,
      sampleEnvelope = tag ++ z16 ++ z16 ++ z16 ++ packU32 50 ++
        packU32 (if false then UseKDF.SLOW else UseKDF.FAST) ++ ct ∧
      tag.length = Size.HMAC ∧
      z16.length = Size.IV ∧ z16.length = Size.SALT ∧
      z16.length = Size.PEPPER ∧
      (packU32 50).length = Size.StructPack.FOR_ITERATIONS ∧
      (packU32 (if false then UseKDF.SLOW else UseKDF.FAST)).length =
        Size.StructPack.FOR_KDF_SIGNATURE ∧
      0 < ct.length ∧ ct.length % 16 = 0 :=
  c3_envelope_layout toyPrims toyPrims_good (.ofBytes sampleMsg) sampleKey 50
    false z16 z16 z16 rfl rfl rfl sampleEnvelope
    [.drawRandom, .kdfDerive, .kdfDerive, .aesEncrypt, .hmacCompute, .aesEncrypt]
    rfl

/-- C5: the carried tag of every envelope is HMAC-SHA256 keyed with the
subkey derived from the pepper (the cipher subkey being derived from
the salt) over exactly IV, salt, pepper, iteration-count bytes,
signature bytes and ciphertext, never the tag itself; decryption
recomputes the comparison tag over the same recovered field sequence
with the same pepper-derived key. -/
theorem c5_hmac_coverage (P : Primitives) (message : PyData) (key : PyStr)
    (iterations : Nat) (ci : Bool) (iv salt pepper : Bytes)
    (raw : Bytes) (tr : List Event)
    (henc : encBasePipeline P message key iterations ci iv salt pepper =
      (.ok raw, tr)) :
    (∃ msgB ek hk ct,
       use_KDF P ci key salt iterations = .ok ek ∧
       use_KDF P ci key pepper iterations = .ok hk ∧
       ct = P.aesCbcEnc ek iv (pkcs7Pad Size.BLOCK msgB) ∧
       raw = P.hmacSha256 hk
           (iv ++ salt ++ pepper ++ packU32 iterations ++
            signtature_KDF_bytes ci ++ ct) ++
         iv ++ salt ++ pepper ++ packU32 iterations ++
         signtature_KDF_bytes ci ++ ct) ∧
    (∀ (message2 : PyData) (key2 : PyStr) (st : DecState) (tr2 : List Event),
       DecBase.init P message2 key2 = (.ok st, tr2) →
       use_KDF P (st.rec_KDF_signature == UseKDF.SLOW) key2 st.rec_salt
           st.rec_iterations = .ok st.dec_key ∧
       use_KDF P (st.rec_KDF_signature == UseKDF.SLOW) key2 st.rec_pepper
           st.rec_iterations = .ok st.hmac_k ∧
       st.rec_hmac = P.hmacSha256 st.hmac_k
         (st.rec_iv ++ st.rec_salt ++ st.rec_pepper ++ st.rec_iters_raw ++
          st.rec_KDF_signature_raw ++ st.rec_ciphertext)) := by
  constructor
  · obtain ⟨msgB, ek, hk, hpm, hchk, hkv, hk1, hk2, htr, hraw⟩ :=
      encBasePipeline_ok P message key iterations ci iv salt pepper raw tr henc
    exact ⟨msgB, ek, hk, _, hk1, hk2, rfl, by rw [hraw]; rfl⟩
  · intro message2 key2 st tr2 hinit
    obtain ⟨_, _, _, _, _, _, _, _, _, _, _, _, hdk, hhk, hver, _⟩ :=
      decBaseInit_ok P message2 key2 st tr2 hinit
    exact ⟨hdk, hhk, hver.symm⟩

/-- Witness for C5 on a concrete encryption and decryption. -/
theorem c5_hmac_coverage_witness :
    (∃ msgB ek hk ct,
       use_KDF toyPrims false sampleKey z16 50 = .ok ek ∧
       use_KDF toyPrims false sampleKey z16 50 = .ok hk ∧
       ct = toyPrims.aesCbcEnc ek z16 (pkcs7Pad Size.BLOCK msgB) ∧
       sampleEnvelope = toyPrims.hmacSha256 hk
           (z16 ++ z16 ++ z16 ++ packU32 50 ++
            signtature_KDF_bytes false ++ ct) ++
         z16 ++ z16 ++ z16 ++ packU32 50 ++
         signtature_KDF_bytes false ++ ct) ∧
    (∀ (message2 : PyData) (key2 : PyStr) (st : DecState) (tr2 : List Event),
       DecBase.init toyPrims message2 key2 = (.ok st, tr2) →
       use_KDF toyPrims (st.rec_KDF_signature == UseKDF.SLOW) key2 st.rec_salt
           st.rec_iterations = .ok st.dec_key ∧
       use_KDF toyPrims (st.rec_KDF_signature == UseKDF.SLOW) key2
           st.rec_pepper st.rec_iterations = .ok st.hmac_k ∧
       st.rec_hmac = toyPrims.hmacSha256 st.hmac_k
         (st.rec_iv ++ st.rec_salt ++ st.rec_pepper ++ st.rec_iters_raw ++
          st.rec_KDF_signature_raw ++ st.rec_ciphertext)) :=
  c5_hmac_coverage toyPrims (.ofBytes sampleMsg) sampleKey 50 false
    z16 z16 z16 sampleEnvelope
    [.drawRandom, .kdfDerive, .kdfDerive, .aesEncrypt, .hmacCompute, .aesEncrypt]
    rfl

/-- C4: an iteration count outside `[50, 1000000]` raises the range
error on the encrypt path before any randomness or derivation (empty
event trace) and on the decrypt path when recovered from the envelope,
before any subkey derivation (empty event trace); in-range counts pass
the shared validator. -/
theorem c4_iteration_bounds (P : Primitives) :
    (∀ (message : PyData) (key : PyStr) (iterations : Nat) (ci : Bool)
       (iv salt pepper : Bytes) (msgB : Bytes),
       parse_message P message = .ok msgB →
       (iterations < Size.MIN_ITERATIONS ∨ Size.MAX_ITERATIONS < iterations) →
       encBasePipeline P message key iterations ci iv salt pepper =
         (.error (.iterationsOutOfRange iterations), [])) ∧
    (∀ (env : Bytes) (key : PyStr) (n m : Nat),
       unpackU32 ((env.drop 80).take 4) = .ok n →
       unpackU32 ((env.drop 84).take 4) = .ok m →
       (n < Size.MIN_ITERATIONS ∨ Size.MAX_ITERATIONS < n) →
       DecBase.init P (.ofBytes env) key =
         (.error (.iterationsOutOfRange n), [])) ∧
    (∀ n, Size.MIN_ITERATIONS ≤ n → n ≤ Size.MAX_ITERATIONS →
       check_iterations n = .ok n) := by
  refine ⟨?_, ?_, ?_⟩
  · intro message key iterations ci iv salt pepper msgB hpm hout
    unfold encBasePipeline EncBase.init
    rw [hpm]
    unfold check_iterations
    rw [if_pos ?cond]
    case cond =>
      rcases hout with h | h
      · exact Or.inl h
      · exact Or.inr h
  · intro env key n m hn hm hout
    unfold DecBase.init
    dsimp only [parse_encrypted_message]
    simp only [Size.HMAC, Size.IV, Size.SALT, Size.PEPPER,
      Size.StructPack.FOR_ITERATIONS, Size.StructPack.FOR_KDF_SIGNATURE,
      Nat.reduceAdd]
    rw [hn, hm]
    dsimp only
    unfold check_iterations
    rw [if_pos ?cond2]
    case cond2 =>
      rcases hout with h | h
      · exact Or.inl h
      · exact Or.inr h
  · intro n h1 h2
    exact check_iterations_ok n h1 h2

/-- Witness for C4: 49 iterations are rejected before any work on
encryption, a tampered envelope carrying 1000001 iterations is rejected
before derivation, and 50 is accepted. -/
theorem c4_iteration_bounds_witness :
    encBasePipeline toyPrims (.ofBytes sampleMsg) sampleKey 49 false
      z16 z16 z16 = (.error (.iterationsOutOfRange 49), []) ∧
    DecBase.init toyPrims
      (.ofBytes (List.replicate 80 0 ++ [0, 15, 66, 65] ++ [0, 0, 0, 1]))
      sampleKey = (.error (.iterationsOutOfRange 1000001), []) ∧
    check_iterations 50 = .ok 50 := by
  refine ⟨?_, ?_, ?_⟩
  · exact (c4_iteration_bounds toyPrims).1 (.ofBytes sampleMsg) sampleKey 49
      false z16 z16 z16 sampleMsg rfl (by decide)
  · exact (c4_iteration_bounds toyPrims).2.1
      (List.replicate 80 0 ++ [0, 15, 66, 65] ++ [0, 0, 0, 1]) sampleKey
      1000001 1 rfl rfl (by decide)
  · exact (c4_iteration_bounds toyPrims).2.2 50 (by decide) (by decide)

/-- C2: during decryption the tag is recomputed and compared before any
AES decryption: the decryptor event can occur only after a successful
construction whose trace ends with the comparison and whose recomputed
tag equals the carried tag, and a tampering failure produces an error
with no decryptor event and no output. -/
theorem c2_verify_then_decrypt (P : Primitives) (message : PyData)
    (key : PyStr) (r : Except CoreErr Bytes) (tr : List Event)
    (h : decBasePipeline P message key = (r, tr)) :
    (Event.aesDecrypt ∈ tr →
       ∃ st, DecBase.init P message key =
           (.ok st, [.kdfDerive, .kdfDerive, .hmacCompute, .tagCompare]) ∧
         DecBase.calculated_hmac P st = st.rec_hmac ∧
         tr = [.kdfDerive, .kdfDerive, .hmacCompute, .tagCompare,
               .aesDecrypt]) ∧
    (r = .error .messageTampering →
       Event.aesDecrypt ∉ tr ∧ Event.tagCompare ∈ tr) := by
  unfold decBasePipeline at h
  cases hinit : DecBase.init P message key with
  | mk res trI =>
  rw [hinit] at h
  cases res with
  | error e =>
    dsimp only at h
    rw [Prod.mk.injEq] at h
    obtain ⟨h1, h2⟩ := h
    subst h2
    constructor
    · intro hmem
      exact absurd hmem (decBaseInit_noAES P message key (.error e) trI hinit)
    · intro hr
      subst h1
      injection hr with he
      subst he
      have htam := decBaseInit_tamper_trace P message key trI hinit
      subst htam
      exact ⟨by decide, by decide⟩
  | ok st =>
    obtain ⟨_, _, _, _, _, _, _, _, _, _, _, _, _, _, hver, htrI⟩ :=
      decBaseInit_ok P message key st trI hinit
    subst htrI
    dsimp only at h
    constructor
    · intro _
      refine ⟨st, rfl, hver, ?_⟩
      cases hun : DecBase.unpadded_message P st with
      | error e => rw [hun] at h; rw [Prod.mk.injEq] at h; exact h.2.symm
      | ok raw => rw [hun] at h; rw [Prod.mk.injEq] at h; exact h.2.symm
    · intro hr
      exfalso
      cases hun : DecBase.unpadded_message P st with
      | error e =>
        rw [hun] at h
        rw [Prod.mk.injEq] at h
        have he := pkcs7Unpad_error _ _ _ hun
        rw [← h.1] at hr
        simp only [Except.error.injEq] at hr
        subst he
        cases hr
      | ok raw =>
        rw [hun] at h
        rw [Prod.mk.injEq] at h
        rw [← h.1] at hr
        cases hr

/-- Witness for C2: decrypting an honest envelope does reach the AES
decryptor, and only after a successful comparison. -/
theorem c2_verify_then_decrypt_witness :
    ∃ st, DecBase.init toyPrims (.ofBytes sampleEnvelope) sampleKey =
        (.ok st, [.kdfDerive, .kdfDerive, .hmacCompute, .tagCompare]) ∧
      DecBase.calculated_hmac toyPrims st = st.rec_hmac ∧
      ([Event.kdfDerive, Event.kdfDerive, Event.hmacCompute,
        Event.tagCompare, Event.aesDecrypt] : List Event) =
      [Event.kdfDerive, Event.kdfDerive, Event.hmacCompute,
       Event.tagCompare, Event.aesDecrypt] := by
  have h := c2_verify_then_decrypt toyPrims (.ofBytes sampleEnvelope)
    sampleKey _ _ rfl
  exact h.1 (by decide)

theorem use_KDF_ok (P : Primitives) (ci : Bool) (key : PyStr) (kb : Bytes)
    (hkb : P.utf8Encode key = some kb) (sp : Bytes) (iters : Nat) :
    use_KDF P ci key sp iters =
      .ok (if ci then P.bcryptKdf kb sp Size.AES_KEY iters
           else P.sha256 (kb ++ sp)) := by
  cases ci <;> simp [use_KDF, intensive_KDF, blazingly_fast_KDF, hkb]

/-- C1 (amended): with a valid key and in-range count, both algorithms
round-trip every str message and every bytes message that is unchanged
by `bytes.strip()`; a bytes message with surrounding ASCII whitespace
is stripped before encryption, so only its stripped form comes back. -/
theorem c1_roundtrip (P : Primitives) (hP : GoodPrims P) (key : PyStr)
    (kb : Bytes) (hkb : P.utf8Encode key = some kb)
    (hkv : key_verify key = .ok ())
    (iterations : Nat) (hLo : Size.MIN_ITERATIONS ≤ iterations)
    (hHi : iterations ≤ Size.MAX_ITERATIONS) (ci : Bool)
    (iv salt pepper : Bytes) (hiv : iv.length = 16)
    (hsalt : salt.length = 16) (hpep : pepper.length = 16) :
    (∀ b : Bytes, b ≠ [] → pyBytesStrip b = b →
       ∃ raw tr,
         encBasePipeline P (.ofBytes b) key iterations ci iv salt pepper =
           (.ok raw, tr) ∧
         (decBasePipeline P (.ofBytes raw) key).1 = .ok b) ∧
    (∀ (s : PyStr) (u : Bytes), s ≠ [] → P.utf8Encode s = some u →
       ∃ raw tr,
         encBasePipeline P (.ofStr s) key iterations ci iv salt pepper =
           (.ok raw, tr) ∧
         (decBasePipelineStr P (.ofBytes raw) key).1 = .ok s) := by
  have hchk := check_iterations_ok iterations hLo hHi
  have hk1 := use_KDF_ok P ci key kb hkb salt iterations
  have hk2 := use_KDF_ok P ci key kb hkb pepper iterations
  constructor
  · intro b hne hstrip
    have hpm : parse_message P (.ofBytes b) = .ok b := by
      simp [parse_message, hstrip]
    refine ⟨_, _,
      encBasePipeline_eq_ok P (.ofBytes b) key iterations ci iv salt pepper
        b _ _ hpm hchk hkv hk1 hk2, ?_⟩
    rw [decBasePipeline_of_enc P hP key b _ _ iterations ci iv salt pepper
      hLo hHi hiv hsalt hpep hk1 hk2]
  · intro s u hne hu
    have hpm : parse_message P (.ofStr s) = .ok u := by
      simp [parse_message, hu]
    refine ⟨_, _,
      encBasePipeline_eq_ok P (.ofStr s) key iterations ci iv salt pepper
        u _ _ hpm hchk hkv hk1 hk2, ?_⟩
    unfold decBasePipelineStr
    rw [decBasePipeline_of_enc P hP key u _ _ iterations ci iv salt pepper
      hLo hHi hiv hsalt hpep hk1 hk2]
    dsimp only
    rw [hP.utf8_roundtrip s u hu]

/-- Witness for the amended C1 at a concrete key, count and message. -/
theorem c1_roundtrip_witness :
    (∃ raw tr,
       encBasePipeline toyPrims (.ofBytes sampleMsg) sampleKey 50 false
         z16 z16 z16 = (.ok raw, tr) ∧
       (decBasePipeline toyPrims (.ofBytes raw) sampleKey).1 =
         .ok sampleMsg) ∧
    (∃ raw tr,
       encBasePipeline toyPrims (.ofStr sampleMsg) sampleKey 50 false
         z16 z16 z16 = (.ok raw, tr) ∧
       (decBasePipelineStr toyPrims (.ofBytes raw) sampleKey).1 =
         .ok sampleMsg) := by
  have h := c1_roundtrip toyPrims toyPrims_good sampleKey sampleKey rfl rfl
    50 (by decide) (by decide) false z16 z16 z16 rfl rfl rfl
  exact ⟨h.1 sampleMsg (by decide) (by decide),
         h.2 sampleMsg sampleMsg (by decide) rfl⟩

/-- Counterexample to C1 as stated: the non-empty bytes message
`[32, 104]` (a space then the letter h) encrypts and then decrypts to
`[104]`, not to itself, because `parse_message` strips bytes input. -/
theorem c1_roundtrip_counterexample :
    ∃ raw tr,
      encBasePipeline toyPrims (.ofBytes [32, 104]) sampleKey 50 false
        z16 z16 z16 = (.ok raw, tr) ∧
      (decBasePipeline toyPrims (.ofBytes raw) sampleKey).1 = .ok [104] ∧
      ([104] : Bytes) ≠ [32, 104] := by
  refine ⟨_, _, rfl, rfl, by decide⟩

/-- A decrypt input that parses to fewer than 88 raw bytes fails in
`DecBase.__init__` with `struct.error` before any derivation work. -/
theorem decBaseInit_short (P : Primitives) (key : PyStr) (input : PyData)
    (env : Bytes) (hparse : parse_encrypted_message P input = .ok env)
    (hshort : env.length < 88) :
    DecBase.init P input key = (.error .structError, []) := by
  unfold DecBase.init
  rw [hparse]
  dsimp only
  simp only [Size.HMAC, Size.IV, Size.SALT, Size.PEPPER,
    Size.StructPack.FOR_ITERATIONS, Size.StructPack.FOR_KDF_SIGNATURE,
    Nat.reduceAdd]
  by_cases h84 : env.length < 84
  · rw [unpackU32_short _ (by
      simp only [List.length_take, List.length_drop]
      omega)]
  · push_neg at h84
    cases hit : unpackU32 ((env.drop 80).take 4) with
    | error e =>
      have he := unpackU32_error _ _ hit
      subst he
      rfl
    | ok n =>
      dsimp only
      rw [unpackU32_short _ (by
        simp only [List.length_take, List.length_drop]
        omega)]

/-- Short parsed input makes the whole decrypt pipeline and both
`Crypt.decrypt` modes fail with the struct unpacking error. -/
theorem decryptShort (P : Primitives) (key : PyStr) (input : PyData)
    (env : Bytes) (hparse : parse_encrypted_message P input = .ok env)
    (hshort : env.length < 88) :
    decBasePipeline P input key = (.error .structError, []) ∧
    (pyTruthy input = true →
       Crypt.decrypt P input key true =
         (.error (.cryptError .structError), []) ∧
       Crypt.decrypt P input key false =
         (.error (.cryptError .structError), [])) := by
  have hpipe : decBasePipeline P input key = (.error .structError, []) := by
    unfold decBasePipeline
    rw [decBaseInit_short P key input env hparse hshort]
  refine ⟨hpipe, ?_⟩
  intro htr
  constructor
  · unfold Crypt.decrypt
    rw [htr]
    simp only [if_true]
    rw [hpipe]
  · unfold Crypt.decrypt
    rw [htr]
    simp only [if_true]
    unfold decBasePipelineStr
    rw [hpipe]
    rfl

/-- C6 (amended): any decrypt input whose raw byte form, or whose
base64-decoded byte form when the input is text, is shorter than the
88-byte fixed-field total fails explicitly during field unpacking with
the untyped `struct.error` (there is no dedicated malformed-envelope
error type in the code), surfaced as `CryptError` by the `Crypt`
facade; no partial output is produced and nothing wraps around. -/
theorem c6_short_input (P : Primitives) (key : PyStr) :
    (∀ env : Bytes, env.length < 88 →
       decBasePipeline P (.ofBytes env) key = (.error .structError, []) ∧
       (env ≠ [] →
          Crypt.decrypt P (.ofBytes env) key true =
            (.error (.cryptError .structError), []) ∧
          Crypt.decrypt P (.ofBytes env) key false =
            (.error (.cryptError .structError), []))) ∧
    (∀ (s : PyStr) (u env : Bytes),
       P.utf8Encode s = some u → P.b64decode u = some env →
       env.length < 88 →
       decBasePipeline P (.ofStr s) key = (.error .structError, []) ∧
       (s ≠ [] →
          Crypt.decrypt P (.ofStr s) key true =
            (.error (.cryptError .structError), []) ∧
          Crypt.decrypt P (.ofStr s) key false =
            (.error (.cryptError .structError), []))) := by
  constructor
  · intro env hshort
    have h := decryptShort P key (.ofBytes env) env rfl hshort
    refine ⟨h.1, ?_⟩
    intro hne
    refine h.2 ?_
    cases env with
    | nil => exact absurd rfl hne
    | cons a t => rfl
  · intro s u env hu hb hshort
    have hparse : parse_encrypted_message P (.ofStr s) = .ok env := by
      unfold parse_encrypted_message
      dsimp only
      rw [hu]
      dsimp only
      rw [hb]
    have h := decryptShort P key (.ofStr s) env hparse hshort
    refine ⟨h.1, ?_⟩
    intro hne
    refine h.2 ?_
    cases s with
    | nil => exact absurd rfl hne
    | cons a t => rfl

/-- Counterexample to C6 as stated: the sample envelope truncated to 10
bytes, given either as raw bytes or in its text form, makes decryption
fail with the untyped `struct.error` (wrapped as `CryptError` by the
facade), not with a dedicated malformed-envelope error, which does not
exist in the code. -/
theorem c6_short_input_counterexample :
    decBasePipeline toyPrims (.ofBytes (sampleEnvelope.take 10)) sampleKey =
      (.error CoreErr.structError, []) ∧
    decBasePipeline toyPrims (.ofStr (sampleEnvelope.take 10)) sampleKey =
      (.error CoreErr.structError, []) ∧
    Crypt.decrypt toyPrims (.ofBytes (sampleEnvelope.take 10)) sampleKey
      true = (.error (DataErr.cryptError CoreErr.structError), []) ∧
    Crypt.decrypt toyPrims (.ofStr (sampleEnvelope.take 10)) sampleKey
      false = (.error (DataErr.cryptError CoreErr.structError), []) :=
  ⟨rfl, rfl, rfl, rfl⟩

/-- Witness for the amended C6 at the concrete truncated envelope, in
both the raw-bytes and the text input form. -/
theorem c6_short_input_witness :
    (decBasePipeline toyPrims (.ofBytes (sampleEnvelope.take 10))
        sampleKey = (.error .structError, []) ∧
     (sampleEnvelope.take 10 ≠ [] →
        Crypt.decrypt toyPrims (.ofBytes (sampleEnvelope.take 10)) sampleKey
          true = (.error (.cryptError .structError), []) ∧
        Crypt.decrypt toyPrims (.ofBytes (sampleEnvelope.take 10)) sampleKey
          false = (.error (.cryptError .structError), []))) ∧
    (decBasePipeline toyPrims (.ofStr (sampleEnvelope.take 10))
        sampleKey = (.error .structError, []) ∧
     (sampleEnvelope.take 10 ≠ [] →
        Crypt.decrypt toyPrims (.ofStr (sampleEnvelope.take 10)) sampleKey
          true = (.error (.cryptError .structError), []) ∧
        Crypt.decrypt toyPrims (.ofStr (sampleEnvelope.take 10)) sampleKey
          false = (.error (.cryptError .structError), []))) :=
  ⟨(c6_short_input toyPrims sampleKey).1 (sampleEnvelope.take 10)
     (by decide),
   (c6_short_input toyPrims sampleKey).2 (sampleEnvelope.take 10)
     (sampleEnvelope.take 10) (sampleEnvelope.take 10) rfl rfl (by decide)⟩

/-- C7 (amended): `EncBase.key_verify` strips whitespace and accepts
exactly the keys whose hex decoding has at least 32 bytes (including
the 32-byte all-zero key and longer keys), rejecting invalid hex and
short keys before any randomness or derivation; the `Crypt` facade is
stricter and accepts only keys decoding to exactly 32 bytes, raising
`KeyLengthError` at construction for anything else, longer keys
included. -/
theorem c7_key_validation :
    (∀ (key : PyStr) (kb : Bytes), bytesFromhex (pyStrStrip key) = some kb →
       32 ≤ kb.length → key_verify key = .ok ()) ∧
    (∀ (key : PyStr) (kb : Bytes), bytesFromhex (pyStrStrip key) = some kb →
       kb.length < 32 → key_verify key = .error .valueError) ∧
    (∀ key : PyStr, bytesFromhex (pyStrStrip key) = none →
       key_verify key = .error .valueError) ∧
    (∀ (P : Primitives) (message : PyData) (key : PyStr) (iterations : Nat)
       (ci : Bool) (iv salt pepper : Bytes) (msgB : Bytes) (e : CoreErr),
       parse_message P message = .ok msgB →
       check_iterations iterations = .ok iterations →
       key_verify key = .error e →
       encBasePipeline P message key iterations ci iv salt pepper =
         (.error e, [])) ∧
    (∀ (key : PyStr) (kb : Bytes), bytesFromhex (pyStrStrip key) = some kb →
       (Crypt.key_verify key = 1 ↔ kb.length = 32)) ∧
    (∀ key : PyStr, Crypt.key_verify key ≠ 1 →
       Crypt.post_init key = .error .keyLength) := by
  refine ⟨?_, ?_, ?_, ?_, ?_, ?_⟩
  · intro key kb hhex hlen
    unfold key_verify
    rw [hhex]
    dsimp only
    rw [if_neg (by simp only [Size.MAIN_KEY]; omega)]
  · intro key kb hhex hlen
    unfold key_verify
    rw [hhex]
    dsimp only
    rw [if_pos (by simpa only [Size.MAIN_KEY] using hlen)]
  · intro key hhex
    unfold key_verify
    rw [hhex]
  · intro P message key iterations ci iv salt pepper msgB e hpm hchk hkv
    unfold encBasePipeline EncBase.init
    rw [hpm, hchk, hkv]
  · intro key kb hhex
    unfold Crypt.key_verify
    rw [hhex]
    dsimp only
    constructor
    · intro h1
      by_contra hne
      rw [if_neg hne] at h1
      exact absurd h1 (by decide)
    · intro h32
      rw [if_pos h32]
  · intro key hne
    unfold Crypt.post_init
    rw [if_pos hne]

/-- Counterexample to C7 as stated: the 66-character all-zero key
decodes to 33 bytes, at least 32, yet the `Crypt` facade rejects it:
`key_verify` returns 0 and construction raises `KeyLengthError`. -/
theorem c7_key_validation_counterexample :
    bytesFromhex (pyStrStrip longKey) = some (List.replicate 33 0) ∧
    32 ≤ (List.replicate 33 (0 : Nat)).length ∧
    Crypt.key_verify longKey = 0 ∧
    Crypt.post_init longKey = .error DataErr.keyLength := by
  refine ⟨by decide, by decide, by decide, ?_⟩
  rfl

/-- Witness for the amended C7: the all-zero 32-byte key passes both
validators, the 33-byte key passes only the core one, and a 31-byte
key, a non-hex key and a key with whitespace splitting a hex pair
(which `bytes.fromhex` rejects) are all rejected. -/
theorem c7_key_validation_witness :
    key_verify sampleKey = .ok () ∧
    key_verify longKey = .ok () ∧
    (Crypt.key_verify sampleKey = 1 ↔
      (List.replicate 32 (0 : Nat)).length = 32) ∧
    key_verify (List.replicate 62 48) = .error .valueError ∧
    key_verify [122] = .error .valueError ∧
    key_verify ([48, 32, 48] ++ List.replicate 62 48) = .error .valueError ∧
    Crypt.key_verify ([48, 32, 48] ++ List.replicate 62 48) = -1 ∧
    Crypt.post_init longKey = .error .keyLength := by
  refine ⟨?_, ?_, ?_, ?_, ?_, ?_, ?_, ?_⟩
  · exact c7_key_validation.1 sampleKey (List.replicate 32 0) (by decide)
      (by decide)
  · exact c7_key_validation.1 longKey (List.replicate 33 0) (by decide)
      (by decide)
  · exact c7_key_validation.2.2.2.2.1 sampleKey (List.replicate 32 0)
      (by decide)
  · exact c7_key_validation.2.1 (List.replicate 62 48) (List.replicate 31 0)
      (by decide) (by decide)
  · exact c7_key_validation.2.2.1 [122] (by decide)
  · exact c7_key_validation.2.2.1 ([48, 32, 48] ++ List.replicate 62 48)
      (by decide)
  · rfl
  · exact c7_key_validation.2.2.2.2.2 longKey (by decide)

/-- C10: on non-empty data every core failure escaping the encryption
or decryption pipeline is replaced at the `Crypt` facade by the single
wrapper `CryptError` carrying its cause, and every error the facade can
return there is such a wrapper, so causes are not distinguishable by
the outer error constructor. -/
theorem c10_crypt_error_wrapping (P : Primitives) (data : PyData)
    (key : PyStr) (intensive : Bool) (rounds : Nat) (iv salt pepper : Bytes)
    (hne : pyTruthy data = true) :
    (∀ (e : CoreErr) (tr : List Event) (gb : Bool),
       encBasePipeline P data key rounds intensive iv salt pepper =
         (.error e, tr) →
       Crypt.encrypt P data key intensive rounds iv salt pepper gb =
         (.error (.cryptError e), tr)) ∧
    (∀ (e : CoreErr) (tr : List Event),
       decBasePipeline P data key = (.error e, tr) →
       Crypt.decrypt P data key true = (.error (.cryptError e), tr)) ∧
    (∀ (e : CoreErr) (tr : List Event),
       decBasePipelineStr P data key = (.error e, tr) →
       Crypt.decrypt P data key false = (.error (.cryptError e), tr)) ∧
    (∀ (gb : Bool) (r : DataErr) (tr : List Event),
       Crypt.encrypt P data key intensive rounds iv salt pepper gb =
         (.error r, tr) → ∃ e, r = .cryptError e) ∧
    (∀ (gb : Bool) (r : DataErr) (tr : List Event),
       Crypt.decrypt P data key gb = (.error r, tr) →
       ∃ e, r = .cryptError e) := by
  refine ⟨?_, ?_, ?_, ?_, ?_⟩
  · intro e tr gb h
    unfold Crypt.encrypt
    rw [hne, h]
    rfl
  · intro e tr h
    unfold Crypt.decrypt
    rw [hne, h]
    rfl
  · intro e tr h
    unfold Crypt.decrypt
    rw [hne]
    simp only [Bool.false_eq_true, if_false]
    rw [h]
    rfl
  · intro gb r tr h
    unfold Crypt.encrypt at h
    rw [hne] at h
    cases henc : encBasePipeline P data key rounds intensive iv salt pepper with
    | mk res trE =>
    rw [henc] at h
    cases res with
    | ok raw =>
      cases gb <;> simp_all
    | error e =>
      dsimp only at h
      rw [Prod.mk.injEq] at h
      exact ⟨e, (Except.error.inj h.1.symm)⟩
  · intro gb r tr h
    unfold Crypt.decrypt at h
    rw [hne] at h
    cases gb with
    | true =>
      simp only [if_true] at h
      cases hdec : decBasePipeline P data key with
      | mk res trD =>
      rw [hdec] at h
      cases res with
      | ok raw => simp at h
      | error e =>
        dsimp only at h
        rw [Prod.mk.injEq] at h
        exact ⟨e, (Except.error.inj h.1.symm)⟩
    | false =>
      simp only [Bool.false_eq_true, if_false] at h
      cases hdec : decBasePipelineStr P data key with
      | mk res trD =>
      rw [hdec] at h
      cases res with
      | ok s => simp at h
      | error e =>
        dsimp only at h
        rw [Prod.mk.injEq] at h
        exact ⟨e, (Except.error.inj h.1.symm)⟩

/-- Witness for C10: a malformed non-empty input surfaces as
`CryptError` chaining the struct unpacking error. -/
theorem c10_crypt_error_wrapping_witness :
    Crypt.decrypt toyPrims (.ofBytes [1]) sampleKey true =
      (.error (.cryptError .structError), []) :=
  (c10_crypt_error_wrapping toyPrims (.ofBytes [1]) sampleKey false 50
      z16 z16 z16 rfl).2.1 .structError [] rfl
